import Mathlib

/-!
Verification of the BOOTH product-info acquisition pipeline
(`src-tauri/src/booth_client.rs`, `src-tauri/src/booth_commands.rs`).

The Rust code is shallowly embedded: pure string manipulation is translated
to Lean functions over `String` / `List Char`; the HTTP client, the URL
parser, the serde JSON decoder and the `scraper` HTML engine are modelled
as oracles supplied in a `NetEnv` record; an HTML document is abstracted by
the map from a CSS selector string to the list of strings the code reads
off the matching elements (element text, or the relevant attribute for
`meta`/`img` selectors — in the code an absent attribute and an empty
attribute both make the selector chain move on, so absence is modelled as
the empty string).  `i64` parsing is modelled with its sign handling and
range check.
-/

namespace Booth

/-- Model of Rust `str::trim` (drop leading and trailing whitespace). -/
def rustTrim (s : String) : String :=
  String.mk (((s.toList.dropWhile Char.isWhitespace).reverse.dropWhile
      Char.isWhitespace).reverse)

/-- Model of Rust `str::len`: the UTF-8 byte length of the string. -/
def rustLen (s : String) : Nat :=
  (s.toList.map Char.utf8Size).sum

/-- Model of Rust `str::contains` for a literal pattern. -/
def strContainsSub (s pat : String) : Bool :=
  (List.range (s.toList.length + 1)).any
    (fun i => List.isPrefixOf pat.toList (s.toList.drop i))

/-- Splitting worker over character lists: `acc` holds the current piece
reversed; a match of the (non-empty) pattern ends the piece.  The fuel is
structural recursion bookkeeping only: every step consumes at least one
character, so fuel equal to the input length is never exhausted. -/
def splitAux (pat : List Char) : Nat → List Char → List Char → List (List Char)
  | _, [], acc => [acc.reverse]
  | 0, l, acc => [acc.reverse ++ l]
  | fuel + 1, c :: cs, acc =>
    if List.isPrefixOf pat (c :: cs) ∧ pat ≠ [] then
      acc.reverse :: splitAux pat fuel (List.drop (pat.length - 1) cs) []
    else
      splitAux pat fuel cs (c :: acc)

/-- Model of Rust `str::split` with a literal (non-empty) pattern,
leftmost-first and non-overlapping. -/
def rustSplit (s pat : String) : List String :=
  (splitAux pat.toList s.toList.length s.toList []).map String.mk

/-- Replacement worker over character lists (leftmost, non-overlapping);
the fuel is structural recursion bookkeeping as in `splitAux`. -/
def replaceAux (pat rep : List Char) : Nat → List Char → List Char
  | _, [] => []
  | 0, l => l
  | fuel + 1, c :: cs =>
    if List.isPrefixOf pat (c :: cs) ∧ pat ≠ [] then
      rep ++ replaceAux pat rep fuel (List.drop (pat.length - 1) cs)
    else
      c :: replaceAux pat rep fuel cs

/-- Model of Rust `str::replace` with a literal (non-empty) pattern. -/
def rustReplace (s pat rep : String) : String :=
  String.mk (replaceAux pat.toList rep.toList s.toList.length s.toList)

/-- Model of Rust `str::ends_with`. -/
def rustEndsWith (s pat : String) : Bool :=
  List.isSuffixOf pat.toList s.toList

/-- Model of Rust `[&str]::join`. -/
def joinSep (sep : List Char) : List (List Char) → List Char
  | [] => []
  | [x] => x
  | x :: xs => x ++ sep ++ joinSep sep xs

/-- Join string pieces with a separator, as Rust `join`. -/
def rustJoin (sep : String) (l : List String) : String :=
  String.mk (joinSep sep.toList (l.map String.toList))

/-- Model of Rust `str::to_lowercase` (ASCII range, which is all the code
compares against). -/
def rustToLower (s : String) : String :=
  String.mk (s.toList.map Char.toLower)

/-- Digit run to its value, as in Rust integer parsing. -/
def digitsVal (cs : List Char) : Nat :=
  cs.foldl (fun n c => n * 10 + (c.toNat - 48)) 0

/-- Parse a non-empty all-digit character run. -/
def digitsToNat? (cs : List Char) : Option Nat :=
  if cs.isEmpty then none
  else if cs.all Char.isDigit then some (digitsVal cs) else none

/-- Model of Rust `str::parse::<i64>()`: optional sign, decimal digits,
`i64` range check. -/
def parseI64 (s : String) : Option Int :=
  let cs := s.toList
  let signed : Bool × List Char :=
    match cs with
    | '-' :: rest => (true, rest)
    | '+' :: rest => (false, rest)
    | _ => (false, cs)
  match digitsToNat? signed.2 with
  | none => none
  | some n =>
    let v : Int := if signed.1 then -(n : Int) else (n : Int)
    if -(2 ^ 63 : Int) ≤ v ∧ v ≤ 2 ^ 63 - 1 then some v else none

example : rustTrim "  ab c  " = "ab c" := by decide
example : rustLen "ab" = 2 := by decide
example : rustLen "猫" = 3 := by decide
example : strContainsSub "The Booth page" "Booth" = true := by decide
example : strContainsSub "shop" "booth" = false := by decide
example : parseI64 "5840141" = some 5840141 := by decide
example : parseI64 "abc" = none := by decide
example : parseI64 "-12" = some (-12) := by decide
example : parseI64 "" = none := by decide

example : rustSplit "/items/5" "/" = ["", "items", "5"] := by decide
example : rustSplit "Widget Name - Shop Co - BOOTH" " - " =
    ["Widget Name", "Shop Co", "BOOTH"] := by decide
example : rustSplit "x -  - y" " - " = ["x", "", "y"] := by decide
example : rustSplit "" " - " = [""] := by decide
example : rustReplace "A - BOOTH - B - C" " - BOOTH" "" = "A - B - C" := by decide
example : rustEndsWith "shop.booth.pm" ".booth.pm" = true := by decide
example : rustEndsWith "booth.pm" ".booth.pm" = false := by decide
example : rustJoin " - " ["x", ""] = "x - " := by decide
example : rustReplace (rustReplace "¥ 1,200" "¥" "") "," "" = " 1200" := by decide
example : rustToLower "The BOOTH Page" = "the booth page" := by decide

/-! ### URL model

`url::Url::parse` is modelled as an oracle producing a `UrlView` (the two
observations the code makes of a parsed URL: `host_str()` and `path()`);
`none` models a parse error. -/

/-- The observations the code makes of a parsed `url::Url`. -/
structure UrlView where
  host : Option String
  path : String
  deriving DecidableEq

/-- `config::booth::MAIN_DOMAIN`. -/
def MAIN_DOMAIN : String := "booth.pm"

/-- `config::booth::SUBDOMAIN_SUFFIX`. -/
def SUBDOMAIN_SUFFIX : String := ".booth.pm"

/-- Host check shared by `validate_booth_url` and
`BoothClient::is_valid_booth_url`: `host == booth.pm || host.ends_with(".booth.pm")`
with a missing host read as `""`. -/
def isBoothDomain (host : Option String) : Bool :=
  host.getD "" = MAIN_DOMAIN ∨ rustEndsWith (host.getD "") SUBDOMAIN_SUFFIX

/-- `item_id.chars().all(|c| c.is_ascii_digit()) && !item_id.is_empty()`. -/
def isNumericId (s : String) : Bool :=
  s.toList.all Char.isDigit ∧ ¬s.toList.isEmpty

/-- `path_segments.iter().position(|&segment| segment == "items")`. -/
def firstItemsIdx : List String → Option Nat
  | [] => none
  | s :: rest =>
    if s = "items" then some 0 else (firstItemsIdx rest).map (· + 1)

/-- The items-path check of `validate_booth_url` on the already-filtered
segment list: first `"items"` position, bounds check, numeric id check. -/
def itemsPathOk (segs : List String) : Bool :=
  match firstItemsIdx segs with
  | some i =>
    if i + 1 < segs.length then isNumericId (segs.getD (i + 1) "") else false
  | none => false

/-- `booth_commands::validate_booth_url`: the input is the outcome of
`url::Url::parse` (`none` = parse error, mapped to `Ok(false)`). -/
def validate_booth_url (u : Option UrlView) : Bool :=
  match u with
  | none => false
  | some v =>
    if ¬isBoothDomain v.host then false
    else itemsPathOk ((rustSplit v.path "/").filter (fun s => ¬s.toList.isEmpty))

/-- `BoothClient::extract_product_id` scan: at every index `i` with
`segs[i] == "items"` and `i + 1 < len`, try to parse `segs[i+1]` as `i64`;
return the first success. -/
def extractIdFromSegs : List String → Option Int
  | [] => none
  | s :: rest =>
    if s = "items" then
      match rest with
      | next :: _ =>
        match parseI64 next with
        | some id => some id
        | none => extractIdFromSegs rest
      | [] => extractIdFromSegs rest
    else extractIdFromSegs rest

/-- `BoothClient::extract_product_id`, taking `url.path()` (the only part
of the URL the function reads): split on `'/'` (unfiltered) and scan. -/
def extract_product_id (path : String) : Except String Int :=
  match extractIdFromSegs (rustSplit path "/") with
  | some id => .ok id
  | none => .error "Could not extract product ID from URL"

example : validate_booth_url (some ⟨some "booth.pm", "/items/123"⟩) = true := by
  decide
example : validate_booth_url (some ⟨some "booth.pm", "/ja/items/123"⟩) = true := by
  decide
example : validate_booth_url (some ⟨some "shop.booth.pm", "/items/123"⟩) = true := by
  decide
example : validate_booth_url (some ⟨some "example.com", "/items/123"⟩) = false := by
  decide
example : validate_booth_url (some ⟨some "booth.pm", "/items/abc"⟩) = false := by
  decide
example : validate_booth_url (some ⟨some "booth.pm", "/items/"⟩) = false := by
  decide
example : validate_booth_url none = false := by decide
example : validate_booth_url (some ⟨some "booth.pm", "/items/abc/items/123"⟩) = false := by
  decide
example : extract_product_id "/items/5840141" = .ok 5840141 := by rfl
example : extract_product_id "/ja/items/123456" = .ok 123456 := by rfl
example : extract_product_id "/shop/example" = .error "Could not extract product ID from URL" := by rfl
example : extract_product_id "/items/abc/items/123" = .ok 123 := by rfl

/-! ### Parsed-document model

A parsed HTML document is abstracted by the map from a CSS selector string
to the list of strings the code reads from the matching elements, in
document order (`element.text().collect::<String>()` for text selectors;
the `content` / `src` / `data-src` attribute for `meta`/`img` selectors,
with an absent attribute modelled as `""`, which the code treats the same
as an empty one).  All selector literals in the source parse successfully,
so the `if let Ok(selector)` guards never skip. -/

/-- Abstracted parsed HTML document. -/
structure Doc where
  sel : String → List String

/-- Build a document from an association list of selector results. -/
def mkDoc (l : List (String × List String)) : Doc :=
  ⟨fun s => ((l.find? (fun p => p.1 = s)).map Prod.snd).getD []⟩

/-- Selector list of `DefaultBoothParser::parse_shop_name`. -/
def shopNameSelectors : List String :=
  [".shop-name a", ".shop-name", "[data-tracking=\x27click_shop_name\x27]",
    ".user-name", ".shop-title a", ".shop-title"]

/-- `DefaultBoothParser::parse_shop_name`: first selector whose first
matched element has non-empty trimmed text. -/
def parse_shop_name (d : Doc) : Option String :=
  shopNameSelectors.findSome? fun s =>
    (d.sel s).head?.bind fun txt =>
      if rustTrim txt ≠ "" then some (rustTrim txt) else none

/-- Selector list of `DefaultBoothParser::parse_product_name`. -/
def productNameSelectors : List String :=
  ["h2.item-name", "h1.item-name", "h1.product-name", ".item-name",
    ".product-name", "[data-tracking=\x27click_item_name\x27]", "h1"]

/-- `DefaultBoothParser::parse_product_name`: first selector whose first
matched element has non-empty trimmed text that does not contain the brand
name (case-insensitively) and differs from the already-resolved shop name. -/
def parse_product_name (d : Doc) : Option String :=
  productNameSelectors.findSome? fun s =>
    (d.sel s).head?.bind fun txt =>
      if rustTrim txt ≠ "" ∧ strContainsSub (rustToLower (rustTrim txt)) "booth" = false ∧
          some (rustTrim txt) ≠ parse_shop_name d then
        some (rustTrim txt)
      else none

/-- Selector list of `DefaultBoothParser::parse_price`. -/
def priceSelectors : List String :=
  [".summary .price", ".variation-price", ".page-wrap .price", ".price-value",
    ".item-price", ".product-price .price", ".price",
    "[data-tracking*=\x27price\x27]"]

/-- `DefaultBoothParser::parse_price`: first selector whose first matched
element's text parses as `i64` after stripping `¥`, `,` and spaces. -/
def parse_price (d : Doc) : Option Int :=
  priceSelectors.findSome? fun s =>
    (d.sel s).head?.bind fun text =>
      parseI64 (rustReplace (rustReplace (rustReplace text "¥" "") "," "") " " "")

/-- Selector list of `DefaultBoothParser::parse_description`. -/
def descriptionSelectors : List String :=
  [".item-description", ".product-description", ".description",
    "meta[name=\x27description\x27]", "meta[property=\x27og:description\x27]"]

/-- `DefaultBoothParser::parse_description`: first selector whose first
matched element yields non-empty trimmed text (meta selectors read the
`content` attribute, which the document abstraction already delivers). -/
def parse_description (d : Doc) : Option String :=
  descriptionSelectors.findSome? fun s =>
    (d.sel s).head?.bind fun text =>
      if rustTrim text ≠ "" then some (rustTrim text) else none

/-- Selector list of `DefaultBoothParser::parse_thumbnail_url`. -/
def thumbnailSelectors : List String :=
  ["img.thumb", "meta[property=\x27og:image\x27]", ".item-image img",
    ".product-image img", ".main-image img", "img.item-thumbnail"]

/-- `DefaultBoothParser::parse_thumbnail_url`: first selector whose first
matched element yields a non-empty URL string. -/
def parse_thumbnail_url (d : Doc) : Option String :=
  thumbnailSelectors.findSome? fun s =>
    (d.sel s).head?.bind fun url =>
      if url ≠ "" then some url else none

/-- Priority selector list of `DefaultBoothParser::parse_tags`. -/
def tagSelectors : List String :=
  ["#js-item-tag-list", "#js-item-tag-list div", "#js-item-tag-list a",
    "#js-item-tag-list .absolute", "#js-item-tag-list .typography-12",
    "#js-item-tag-list .text-white", "#js-item-tag-list .font-bold",
    "#js-item-tag-list div.absolute.box-border",
    "#js-item-tag-list div.typography-12",
    "#js-item-tag-list div[style*=\x27text-shadow\x27]",
    ".js-item-tag-list", ".js-item-tag-list div", ".js-item-tag-list a",
    ".tags .tag", ".tags a", ".tags div"]

/-- The fixed UI/navigation denylist (`excluded_texts`) of
`DefaultBoothParser::parse_tags`. -/
def excludedTexts : List String :=
  ["ポストする", "シェア", "Share", "投稿", "Tweet", "Facebook",
    "ログイン", "Login", "サインイン", "Sign in", "登録", "Register",
    "カート", "Cart", "購入", "Buy", "決済", "Payment", "支払い",
    "フォロー", "Follow", "お気に入り", "Favorite", "いいね", "Like",
    "戻る", "Back", "次へ", "Next", "前へ", "Previous", "もっと見る",
    "More", "閉じる", "Close", "開く", "Open", "表示", "View", "非表示",
    "Hide", "メニュー", "Menu", "検索", "Search", "絞り込み", "Filter",
    "並び替え", "Sort", "設定", "Settings", "ヘルプ", "Help", "ホーム",
    "Home", "マイページ", "My page", "プロフィール", "Profile", "通知",
    "Notification", "メッセージ", "Message", "お知らせ", "News",
    "利用規約", "Terms", "プライバシー", "Privacy", "規約", "Policy",
    "コピー", "Copy", "ダウンロード", "Download", "アップロード",
    "Upload", "編集", "Edit", "削除", "Delete", "保存", "Save",
    "キャンセル", "Cancel", "確認", "Confirm", "OK", "はい", "Yes",
    "いいえ", "No", "商品を見る", "詳細を見る", "もっと読む", "続きを読む"]

/-- One element's processing inside the `parse_tags` loops: trim, byte
length bounds (Rust `str::len`), denylist and duplicate checks, push. -/
def processTag (tags : List String) (txt : String) : List String :=
  if 2 ≤ rustLen (rustTrim txt) ∧ rustLen (rustTrim txt) ≤ 50 ∧ rustTrim txt ≠ "" then
    if excludedTexts.contains (rustTrim txt) ∨ tags.contains (rustTrim txt) then tags
    else tags ++ [rustTrim txt]
  else tags

/-- `DefaultBoothParser::parse_tags`: all elements of every priority
selector, in order, through `processTag`. -/
def parse_tags (d : Doc) : List String :=
  tagSelectors.foldl (fun tags s => (d.sel s).foldl processTag tags) []

/-- `BoothClient::fallback_parse_shop_name`: second-to-last piece of the
`<title>` text split on `" - "`. -/
def fallback_parse_shop_name (d : Doc) : Option String :=
  (d.sel "title").head?.bind fun title =>
    let parts := rustSplit title " - "
    if 2 ≤ parts.length then
      some (rustTrim (parts.getD (parts.length - 2) ""))
    else none

/-- `BoothClient::fallback_parse_product_name`: remove `" - BOOTH"` from
the `<title>` text, split on `" - "`, join all pieces but the last. -/
def fallback_parse_product_name (d : Doc) : Option String :=
  (d.sel "title").head?.bind fun title =>
    let clean_title := rustReplace title " - BOOTH" ""
    let parts := rustSplit clean_title " - "
    if 2 ≤ parts.length then
      some (rustTrim (rustJoin " - " (parts.take (parts.length - 1))))
    else if ¬parts.isEmpty then
      some (rustTrim (parts.getD 0 ""))
    else none

example :
    parse_shop_name (mkDoc [(".shop-name", ["  Extension Shop "])]) =
      some "Extension Shop" := by decide
example : parse_shop_name (mkDoc [(".shop-name", ["  "])]) = none := by decide
example : parse_shop_name (mkDoc []) = none := by decide
example :
    fallback_parse_shop_name (mkDoc [("title", ["Widget Name - Shop Co - BOOTH"])]) =
      some "Shop Co" := by decide
example :
    fallback_parse_product_name (mkDoc [("title", ["Widget Name - Shop Co - BOOTH"])]) =
      some "Widget Name" := by decide
example :
    fallback_parse_shop_name (mkDoc [("title", ["x -  - y"])]) = some "" := by decide
example :
    fallback_parse_product_name (mkDoc [("title", ["x -  - y"])]) = some "x -" := by
  decide
example :
    parse_tags (mkDoc [("#js-item-tag-list", ["VRChat", " 3Dモデル ", "Share", "VRChat"])]) =
      ["VRChat", "3Dモデル"] := by decide
example : parse_tags (mkDoc [("#js-item-tag-list", ["猫"])]) = ["猫"] := by decide
example :
    parse_price (mkDoc [(".price-value", ["¥1,200"])]) = some 1200 := by decide

/-! ### Product record, JSON path and resolver -/

/-- `booth_client::BoothProductInfo`. -/
structure BoothProductInfo where
  product_id : Option Int
  shop_name : String
  product_name : String
  price : Option Int
  description : Option String
  thumbnail_url : Option String
  is_free : Bool
  tags : List String
  booth_url : String
  deriving DecidableEq

/-- `booth_client::BoothJsonTag` (the `name` field is the only one read). -/
structure BoothJsonTag where
  name : String
  deriving DecidableEq

/-- `booth_client::BoothJsonShop` (the `name` field is the only one read). -/
structure BoothJsonShop where
  name : String
  deriving DecidableEq

/-- `booth_client::BoothJsonImage`. -/
structure BoothJsonImage where
  original : Option String
  resized : Option String
  deriving DecidableEq

/-- `booth_client::BoothJsonResponse`, restricted to the fields the mapping
reads (`published_at`, `is_adult`, `category` are decoded but never used). -/
structure BoothJsonResponse where
  id : Int
  name : String
  price : String
  description : Option String
  tags : List BoothJsonTag
  images : List BoothJsonImage
  shop : BoothJsonShop
  deriving DecidableEq

/-- `BoothClient::parse_price_from_string`: strip `¥`, `,` and spaces,
trim; empty or `"0"` means free (`none`); otherwise `parse::<i64>().ok()`. -/
def parse_price_from_string (price_str : String) : Option Int :=
  let cleaned :=
    rustTrim (rustReplace (rustReplace (rustReplace price_str "¥" "") "," "") " " "")
  if cleaned = "" ∨ cleaned = "0" then none
  else parseI64 cleaned

/-- `str::trim_end_matches('/')`: drop every trailing slash. -/
def trimEndSlashes (s : String) : String :=
  String.mk ((s.toList.reverse.dropWhile (· = '/')).reverse)

/-- The JSON endpoint derivation in `get_product_info_json_internal`. -/
def jsonUrlOf (booth_url : String) : String :=
  if rustEndsWith booth_url ".json" then booth_url
  else trimEndSlashes booth_url ++ ".json"

/-- Oracles for the effectful collaborators: `url::Url::parse`,
`fetch_with_retry` (per target URL), `serde_json::from_str`, and
`scraper::Html::parse_document`. -/
structure NetEnv where
  parseUrl : String → Option UrlView
  fetch : String → Except String String
  decodeJson : String → Option BoothJsonResponse
  parseHtml : String → Doc

/-- `BoothClient::get_product_info_json_internal`: validate the URL text,
derive the `.json` endpoint, fetch, decode, and map onto the record. -/
def get_product_info_json_internal (env : NetEnv) (booth_url : String) :
    Except String BoothProductInfo :=
  match env.parseUrl booth_url with
  | none => .error "URL parse error"
  | some _ =>
    match env.fetch (jsonUrlOf booth_url) with
    | .error e => .error e
    | .ok json_content =>
      match env.decodeJson json_content with
      | none => .error "Failed to parse JSON response"
      | some j =>
        let price := parse_price_from_string j.price
        let is_free : Bool := price.isNone ∨ price = some 0
        let thumbnail_url :=
          j.images.head?.bind fun img => img.resized.orElse fun _ => img.original
        .ok
          { product_id := some j.id
            shop_name := j.shop.name
            product_name := j.name
            price
            description := j.description
            thumbnail_url
            is_free
            tags := j.tags.map (fun tag => tag.name)
            booth_url }

/-- `BoothClient::is_valid_booth_url`. -/
def is_valid_booth_url (v : UrlView) : Bool :=
  isBoothDomain v.host

/-- The record assembly of the HTML path (`get_product_info_with_parser`
in the source) once the page
document is available: shop and product name through the selector strategy
with the title fallback (both required), the remaining fields optional. -/
def resolveFromDoc (pid : Int) (booth_url : String) (d : Doc) :
    Except String BoothProductInfo :=
  match (parse_shop_name d).orElse fun _ => fallback_parse_shop_name d with
  | none => .error "Could not extract shop name from page"
  | some shop_name =>
    match (parse_product_name d).orElse fun _ => fallback_parse_product_name d with
    | none => .error "Could not extract product name from page"
    | some product_name =>
      let price := parse_price d
      let is_free : Bool := price.isNone ∨ price = some 0
      .ok
        { product_id := some pid
          shop_name
          product_name
          price
          description := parse_description d
          thumbnail_url := parse_thumbnail_url d
          is_free
          tags := parse_tags d
          booth_url }

/-- `BoothClient::get_product_info_with_parser` (HTML path): URL parse and
domain validation, product-id extraction from the path, page fetch, then
`resolveFromDoc`. -/
def get_product_info_via_html (env : NetEnv) (booth_url : String) :
    Except String BoothProductInfo :=
  match env.parseUrl booth_url with
  | none => .error "URL parse error"
  | some v =>
    if ¬is_valid_booth_url v then .error "Invalid BOOTH URL"
    else
      match extract_product_id v.path with
      | .error e => .error e
      | .ok pid =>
        match env.fetch booth_url with
        | .error e => .error e
        | .ok html_content => resolveFromDoc pid booth_url (env.parseHtml html_content)

/-- `BoothClient::get_product_info`, instrumented with whether the HTML
fallback path was entered. -/
def get_product_info_traced (env : NetEnv) (booth_url : String) :
    Except String BoothProductInfo × Bool :=
  match get_product_info_json_internal env booth_url with
  | .ok product_info => (.ok product_info, false)
  | .error _ => (get_product_info_via_html env booth_url, true)

/-- `BoothClient::get_product_info`. -/
def get_product_info (env : NetEnv) (booth_url : String) :
    Except String BoothProductInfo :=
  (get_product_info_traced env booth_url).1

example : parse_price_from_string "¥ 1,200" = some 1200 := by decide
example : parse_price_from_string "¥0" = none := by decide
example : parse_price_from_string "" = none := by decide
example : parse_price_from_string "¥ 800" = some 800 := by decide
example : jsonUrlOf "https://booth.pm/ja/items/3681219/" =
    "https://booth.pm/ja/items/3681219.json" := by decide
example : jsonUrlOf "https://booth.pm/ja/items/3681219.json" =
    "https://booth.pm/ja/items/3681219.json" := by decide

/-! ### Retrying fetch model

`fetch_with_retry` is modelled over a sequence of per-attempt HTTP events:
`resp code body` is a completed HTTP response (the body read outcome is
only consulted for success statuses), `netError` a transport failure.  The
outcome records the attempts actually made and the backoff sleeps (in
milliseconds, rate-limit waits not included). -/

instance {ε α : Type} [DecidableEq ε] [DecidableEq α] : DecidableEq (Except ε α) :=
  fun a b =>
    match a, b with
    | .ok x, .ok y => decidable_of_iff (x = y) (by simp)
    | .error x, .error y => decidable_of_iff (x = y) (by simp)
    | .ok _, .error _ => isFalse (by simp)
    | .error _, .ok _ => isFalse (by simp)

/-- One HTTP attempt's outcome as seen by the retry loop. -/
inductive HttpEvent where
  | resp (code : Nat) (body : Option String)
  | netError
  deriving DecidableEq

/-- Result of a `fetch_with_retry` run: final result, number of attempts
issued, and the backoff sleep durations in order. -/
structure FetchOutcome where
  result : Except String String
  attempts : Nat
  backoffs : List Nat
  deriving DecidableEq

/-- `reqwest::StatusCode::is_success`. -/
def isSuccessStatus (code : Nat) : Bool := 200 ≤ code ∧ code < 300

/-- `BoothClient::MAX_RETRIES`. -/
def MAX_RETRIES : Nat := 3

/-- The `for attempt in 1..=MAX_RETRIES` loop of `fetch_with_retry`:
success with readable body returns it; a body-read failure records the
error and continues; 429 sleeps `1000ms * 2^(attempt-1)` and continues;
any other non-success status returns an error immediately; a transport
error records it and, if attempts remain, sleeps `500ms * 2^(attempt-1)`. -/
def fetchGo (ev : Nat → HttpEvent) :
    List Nat → Option String → List Nat → Nat → FetchOutcome
  | [], last_error, sleeps, done =>
    ⟨.error (last_error.getD "Max retries exceeded"), done, sleeps⟩
  | attempt :: rest, _, sleeps, done =>
    match ev attempt with
    | .resp code body =>
      if isSuccessStatus code then
        match body with
        | some text => ⟨.ok text, done + 1, sleeps⟩
        | none => fetchGo ev rest (some "Response read error") sleeps (done + 1)
      else if code = 429 then
        fetchGo ev rest (some "Rate limited (429), retrying...")
          (sleeps ++ [1000 * 2 ^ (attempt - 1)]) (done + 1)
      else ⟨.error "HTTP error", done + 1, sleeps⟩
    | .netError =>
      let sleeps' :=
        if attempt < MAX_RETRIES then sleeps ++ [500 * 2 ^ (attempt - 1)] else sleeps
      fetchGo ev rest (some "Network error") sleeps' (done + 1)

/-- `BoothClient::fetch_with_retry` over the event oracle. -/
def fetch_with_retry (ev : Nat → HttpEvent) : FetchOutcome :=
  fetchGo ev [1, 2, 3] none [] 0

example :
    fetch_with_retry (fun a => if a ≤ 2 then .resp 429 none else .resp 200 (some "B")) =
      ⟨.ok "B", 3, [1000, 2000]⟩ := by decide
example :
    fetch_with_retry (fun _ => .resp 500 none) = ⟨.error "HTTP error", 1, []⟩ := by
  decide
example :
    fetch_with_retry (fun _ => .resp 429 none) =
      ⟨.error "Rate limited (429), retrying...", 3, [1000, 2000, 4000]⟩ := by decide
example :
    fetch_with_retry (fun _ => .netError) =
      ⟨.error "Network error", 3, [500, 1000]⟩ := by decide

/-! ### Rate limiter model

`apply_rate_limit` over a discrete monotone clock: the recorded state is
the `Instant` of the previous dispatch (`none` before the first call);
`sleep(d)` advances the clock by `d`; the new timestamp is taken after the
sleep.  `Instant` subtraction saturates at zero, as `Nat` subtraction. -/

/-- The wait computed under the lock: `rate_limit_delay - elapsed` when
`elapsed < rate_limit_delay`, else no wait; never waits without a prior
timestamp. -/
def rateLimitWait (delay : Nat) (last : Option Nat) (now : Nat) : Nat :=
  match last with
  | none => 0
  | some t => if now - t < delay then delay - (now - t) else 0

/-- `BoothClient::apply_rate_limit`: returns the dispatch instant (after
the sleep) and the newly recorded timestamp, which is taken only after the
sleep has returned. -/
def apply_rate_limit (delay : Nat) (last : Option Nat) (now : Nat) : Nat × Option Nat :=
  let dispatch := now + rateLimitWait delay last now
  (dispatch, some dispatch)

/-- `BoothClient::DEFAULT_RATE_LIMIT` in milliseconds. -/
def DEFAULT_RATE_LIMIT : Nat := 1000

example : apply_rate_limit DEFAULT_RATE_LIMIT none 5 = (5, some 5) := by decide
example : apply_rate_limit DEFAULT_RATE_LIMIT (some 5) 300 = (1005, some 1005) := by
  decide
example : apply_rate_limit DEFAULT_RATE_LIMIT (some 5) 2000 = (2000, some 2000) := by
  decide

/-! ### Example environments used by witnesses -/

/-- A JSON body as decoded by serde in the happy path. -/
def exJson : BoothJsonResponse :=
  { id := 3681219, name := "Item", price := "¥ 1,200", description := none,
    tags := [⟨"VRChat"⟩], images := [], shop := ⟨"Shop"⟩ }

/-- Environment in which the structured (JSON) path succeeds. -/
def exEnvJson : NetEnv :=
  { parseUrl := fun _ => some ⟨some "booth.pm", "/ja/items/3681219"⟩
    fetch := fun _ => .ok "body"
    decodeJson := fun _ => some exJson
    parseHtml := fun _ => mkDoc [] }

/-- Environment in which the fetch returns HTTP 200 with a body that fails
to decode as JSON. -/
def exEnvDecodeFail : NetEnv :=
  { parseUrl := fun _ => some ⟨some "booth.pm", "/ja/items/3681219"⟩
    fetch := fun _ => .ok "body"
    decodeJson := fun _ => none
    parseHtml := fun _ => mkDoc [] }

/-- Environment whose decoded JSON carries an unparseable price string. -/
def exEnvBadPrice : NetEnv :=
  { parseUrl := fun _ => some ⟨some "booth.pm", "/ja/items/3681219"⟩
    fetch := fun _ => .ok "body"
    decodeJson := fun _ => some { exJson with price := "¥abc" }
    parseHtml := fun _ => mkDoc [] }

/-! ### Claim theorems -/

/-- C9: the rate limiter's wait never sleeps on the first-ever call (no
prior timestamp); with a prior timestamp `t` and a monotone clock, the
call returns no earlier than `t` plus the minimum interval; and the newly
recorded timestamp is the instant after the sleep has returned. -/
theorem rate_limiter_min_interval :
    (∀ delay now, rateLimitWait delay none now = 0) ∧
    (∀ delay t now, t ≤ now →
      t + delay ≤ (apply_rate_limit delay (some t) now).1) ∧
    (∀ delay last now,
      (apply_rate_limit delay last now).2 = some (now + rateLimitWait delay last now)) := by
  refine ⟨fun delay now => rfl, fun delay t now h => ?_, fun delay last now => rfl⟩
  simp only [apply_rate_limit, rateLimitWait]
  split <;> omega

/-- Witness for `rate_limiter_min_interval` at the default interval, a
first call at instant 0 and a second call 300 ms after a dispatch at 5. -/
theorem rate_limiter_min_interval_witness :
    rateLimitWait DEFAULT_RATE_LIMIT none 0 = 0 ∧
    5 + DEFAULT_RATE_LIMIT ≤ (apply_rate_limit DEFAULT_RATE_LIMIT (some 5) 305).1 :=
  ⟨rate_limiter_min_interval.1 DEFAULT_RATE_LIMIT 0,
    rate_limiter_min_interval.2.1 DEFAULT_RATE_LIMIT 5 305 (by decide)⟩

/-- C2: the retrying fetch on the response sequence [429, 429, 200] returns
the one successful body after exactly two backoff sleeps (1000 ms then
2000 ms) in three attempts; and any first response with a non-success
status other than 429 yields an immediate error after a single attempt
with no backoff sleeps. -/
theorem fetch_with_retry_backoff :
    fetch_with_retry
        (fun a => if a ≤ 2 then .resp 429 none else .resp 200 (some "B")) =
      ⟨.ok "B", 3, [1000, 2000]⟩ ∧
    (∀ ev code body, isSuccessStatus code = false → code ≠ 429 →
      ev 1 = .resp code body →
      fetch_with_retry ev = ⟨.error "HTTP error", 1, []⟩) := by
  refine ⟨by decide, fun ev code body h1 h2 h3 => ?_⟩
  simp [fetch_with_retry, fetchGo, h3, h1, h2]

/-- Witness for `fetch_with_retry_backoff` on the single-response
sequence [500]. -/
theorem fetch_with_retry_backoff_witness :
    fetch_with_retry (fun _ => .resp 500 none) = ⟨.error "HTTP error", 1, []⟩ :=
  fetch_with_retry_backoff.2 (fun _ => .resp 500 none) 500 none (by decide)
    (by decide) rfl

/-- C1: the resolver first runs the structured (JSON) fetch; a success is
returned unchanged with the HTML path never entered; the HTML path is
entered exactly when the structured fetch errors, including a JSON body
that fails to decode despite an HTTP-200 fetch. -/
theorem get_product_info_fallback (env : NetEnv) (booth_url : String) :
    (∀ r, get_product_info_json_internal env booth_url = .ok r →
      get_product_info_traced env booth_url = (.ok r, false)) ∧
    ((get_product_info_traced env booth_url).2 = true ↔
      ∃ e, get_product_info_json_internal env booth_url = .error e) ∧
    (∀ e, get_product_info_json_internal env booth_url = .error e →
      get_product_info_traced env booth_url =
        (get_product_info_via_html env booth_url, true)) ∧
    (∀ v body, env.parseUrl booth_url = some v →
      env.fetch (jsonUrlOf booth_url) = .ok body → env.decodeJson body = none →
      (get_product_info_traced env booth_url).2 = true) := by
  refine ⟨fun r h => ?_, ?_, fun e h => ?_, fun v body h1 h2 h3 => ?_⟩
  · simp [get_product_info_traced, h]
  · cases h : get_product_info_json_internal env booth_url with
    | ok r => simp [get_product_info_traced, h]
    | error e => simp [get_product_info_traced, h]
  · simp [get_product_info_traced, h]
  · have h : get_product_info_json_internal env booth_url =
        .error "Failed to parse JSON response" := by
      simp [get_product_info_json_internal, h1, h2, h3]
    simp [get_product_info_traced, h]

/-- Witness for `get_product_info_fallback`: a decode failure on an
HTTP-200 JSON body makes the resolver enter the HTML path. -/
theorem get_product_info_fallback_witness :
    (get_product_info_traced exEnvDecodeFail "u").2 = true :=
  (get_product_info_fallback exEnvDecodeFail "u").2.2.2
    ⟨some "booth.pm", "/ja/items/3681219"⟩ "body" rfl rfl rfl

/-- C7: price parsing strips `¥`, `,` and spaces and trims; an empty or
`"0"` remainder is free (`none`); `"¥ 1,200"` parses to 1200; and on the
JSON path a price-parse failure is not fatal — whenever the body decodes,
the fetch succeeds and the record's price is exactly the parsed price —
while a body that fails to decode fails the call. -/
theorem parse_price_nonfatal :
    parse_price_from_string "¥ 1,200" = some 1200 ∧
    parse_price_from_string "¥0" = none ∧
    parse_price_from_string "" = none ∧
    (∀ env booth_url body j v, env.parseUrl booth_url = some v →
      env.fetch (jsonUrlOf booth_url) = .ok body →
      env.decodeJson body = some j →
      ∃ r, get_product_info_json_internal env booth_url = .ok r ∧
        r.price = parse_price_from_string j.price) ∧
    (∀ env booth_url body v, env.parseUrl booth_url = some v →
      env.fetch (jsonUrlOf booth_url) = .ok body →
      env.decodeJson body = none →
      get_product_info_json_internal env booth_url =
        .error "Failed to parse JSON response") := by
  refine ⟨by decide, by decide, by decide,
    fun env booth_url body j v h1 h2 h3 => ?_,
    fun env booth_url body v h1 h2 h3 => ?_⟩
  · simp only [get_product_info_json_internal, h1, h2, h3]
    exact ⟨_, rfl, rfl⟩
  · simp [get_product_info_json_internal, h1, h2, h3]

/-- Witness for `parse_price_nonfatal`: with the unparseable price string
`"¥abc"` the JSON fetch still succeeds and the price is simply absent. -/
theorem parse_price_nonfatal_witness :
    ∃ r, get_product_info_json_internal exEnvBadPrice "u" = .ok r ∧
      r.price = parse_price_from_string "¥abc" :=
  parse_price_nonfatal.2.2.2.1 exEnvBadPrice "u" "body" { exJson with price := "¥abc" }
    ⟨some "booth.pm", "/ja/items/3681219"⟩ rfl rfl rfl

/-- Any record the JSON path returns carries `product_id = some id`. -/
lemma json_internal_ok_product_id {env : NetEnv} {booth_url : String}
    {r : BoothProductInfo}
    (h : get_product_info_json_internal env booth_url = .ok r) :
    ∃ id, r.product_id = some id := by
  unfold get_product_info_json_internal at h
  repeat' split at h
  all_goals first
    | exact Except.noConfusion h
    | (injection h with h2; subst h2; exact ⟨_, rfl⟩)

/-- The fields of any record `resolveFromDoc` returns: the product id is
the extracted one, and shop/product name are exactly what the two-strategy
extraction produced. -/
lemma resolveFromDoc_ok_fields {pid : Int} {booth_url : String} {d : Doc}
    {r : BoothProductInfo} (h : resolveFromDoc pid booth_url d = .ok r) :
    r.product_id = some pid ∧
    ((parse_shop_name d).orElse fun _ => fallback_parse_shop_name d) =
      some r.shop_name ∧
    ((parse_product_name d).orElse fun _ => fallback_parse_product_name d) =
      some r.product_name := by
  unfold resolveFromDoc at h
  cases hs : (parse_shop_name d).orElse fun _ => fallback_parse_shop_name d with
  | none => rw [hs] at h; exact Except.noConfusion h
  | some sn =>
    rw [hs] at h
    cases hp : (parse_product_name d).orElse fun _ => fallback_parse_product_name d with
    | none => rw [hp] at h; exact Except.noConfusion h
    | some pn =>
      rw [hp] at h
      injection h with h2
      subst h2
      exact ⟨rfl, rfl, rfl⟩

/-- The HTML path only returns records whose `product_id` is the id
extracted from the URL path. -/
lemma with_parser_ok_product_id {env : NetEnv} {booth_url : String}
    {r : BoothProductInfo}
    (h : get_product_info_via_html env booth_url = .ok r) :
    ∃ id, r.product_id = some id := by
  unfold get_product_info_via_html at h
  repeat' split at h
  all_goals first
    | exact Except.noConfusion h
    | exact ⟨_, (resolveFromDoc_ok_fields h).1⟩

/-- C10: every successfully resolved record has `product_id` present
(non-`none`), on both the JSON path and the HTML path. -/
theorem resolved_product_id_present :
    ∀ env booth_url r, get_product_info env booth_url = .ok r →
      r.product_id ≠ none := by
  intro env booth_url r h
  unfold get_product_info get_product_info_traced at h
  cases hj : get_product_info_json_internal env booth_url with
  | ok r' =>
    rw [hj] at h
    simp only at h
    obtain ⟨id, hid⟩ := json_internal_ok_product_id hj
    injection h with h2
    rw [← h2, hid]
    simp
  | error e =>
    rw [hj] at h
    simp only at h
    obtain ⟨id, hid⟩ := with_parser_ok_product_id h
    rw [hid]
    simp

/-- Witness for `resolved_product_id_present` on the concrete JSON-path
environment. -/
theorem resolved_product_id_present_witness :
    ({ product_id := some 3681219, shop_name := "Shop", product_name := "Item",
       price := some 1200, description := none, thumbnail_url := none,
       is_free := false, tags := ["VRChat"], booth_url := "u" } :
        BoothProductInfo).product_id ≠ none :=
  resolved_product_id_present exEnvJson "u" _ (by decide)

/-! ### C5: URL validator -/

/-- The path condition as the claim states it: the (non-empty) path
segments contain a segment `"items"` immediately followed by a non-empty
all-ASCII-digit segment — anywhere in the list. -/
def pathHasItemsDigits (segs : List String) : Prop :=
  ∃ pre id post, segs = pre ++ "items" :: id :: post ∧ id ≠ "" ∧
    ∀ c ∈ id.toList, c.isDigit = true

/-- The validator contract exactly as the claim states it. -/
def spec_is_product_url (u : Option UrlView) : Prop :=
  ∃ v, u = some v ∧ isBoothDomain v.host = true ∧
    pathHasItemsDigits ((rustSplit v.path "/").filter (fun s => ¬s.toList.isEmpty))

/-- The path condition the code implements: only the first `"items"`
segment is inspected. -/
def pathFirstItemsDigits (segs : List String) : Prop :=
  ∃ pre id post, segs = pre ++ "items" :: id :: post ∧ "items" ∉ pre ∧
    id ≠ "" ∧ ∀ c ∈ id.toList, c.isDigit = true

/-- C5 counterexample: `https://booth.pm/items/abc/items/123` has a
segment `"items"` immediately followed by the digit segment `"123"`, so
the claim says the validator accepts it, but the code inspects only the
first `"items"` segment (followed by `"abc"`) and rejects it. -/
theorem validate_booth_url_counterexample :
    spec_is_product_url (some ⟨some "booth.pm", "/items/abc/items/123"⟩) ∧
    validate_booth_url (some ⟨some "booth.pm", "/items/abc/items/123"⟩) = false := by
  refine ⟨⟨⟨some "booth.pm", "/items/abc/items/123"⟩, rfl, by decide,
    ⟨["items", "abc"], "123", [], by decide, by decide, by decide⟩⟩, by decide⟩

lemma string_eq_empty_iff {s : String} : s = "" ↔ s.toList = [] := by
  constructor
  · intro h; rw [h]; rfl
  · intro h
    cases s with
    | mk data => exact congrArg String.mk h

lemma isNumericId_iff {s : String} :
    isNumericId s = true ↔ s ≠ "" ∧ ∀ c ∈ s.toList, c.isDigit = true := by
  simp only [isNumericId, decide_eq_true_eq, List.all_eq_true, List.isEmpty_iff]
  rw [← string_eq_empty_iff]
  exact and_comm

lemma itemsPathOk_cons_ne {s : String} (hs : s ≠ "items") (rest : List String) :
    itemsPathOk (s :: rest) = itemsPathOk rest := by
  unfold itemsPathOk
  rw [show firstItemsIdx (s :: rest) = (firstItemsIdx rest).map (· + 1) by
    simp [firstItemsIdx, hs]]
  cases hfi : firstItemsIdx rest with
  | none => simp
  | some i =>
    simp only [Option.map_some]
    have hlen : i + 1 + 1 < (s :: rest).length ↔ i + 1 < rest.length := by
      simp [List.length_cons]
    by_cases hb : i + 1 < rest.length
    · simp [hlen.mpr hb, hb, List.getD_cons_succ]
    · simp [hb, fun h => hb (hlen.mp h)]

lemma pathFirstItemsDigits_cons_ne {s : String} (hs : s ≠ "items")
    {rest : List String} :
    pathFirstItemsDigits (s :: rest) ↔ pathFirstItemsDigits rest := by
  constructor
  · rintro ⟨pre, id, post, heq, hpre, hid, hdig⟩
    cases pre with
    | nil =>
      exact absurd (List.cons.inj heq).1 hs
    | cons p pre' =>
      rw [List.cons_append] at heq
      obtain ⟨hsp, hrest⟩ := List.cons.inj heq
      exact ⟨pre', id, post, hrest, fun hm => hpre (List.mem_cons_of_mem _ hm),
        hid, hdig⟩
  · rintro ⟨pre, id, post, heq, hpre, hid, hdig⟩
    refine ⟨s :: pre, id, post, by rw [heq, List.cons_append], ?_, hid, hdig⟩
    intro hm
    rcases List.mem_cons.1 hm with h1 | h1
    · exact hs h1.symm
    · exact hpre h1

lemma itemsPathOk_iff (segs : List String) :
    itemsPathOk segs = true ↔ pathFirstItemsDigits segs := by
  induction segs with
  | nil =>
    constructor
    · intro h; simp [itemsPathOk, firstItemsIdx] at h
    · rintro ⟨pre, id, post, heq, -, -, -⟩
      cases pre <;> simp at heq
  | cons s rest ih =>
    by_cases hs : s = "items"
    · subst hs
      cases rest with
      | nil =>
        constructor
        · intro h; simp [itemsPathOk, firstItemsIdx] at h
        · rintro ⟨pre, id, post, heq, -, -, -⟩
          cases pre with
          | nil => simp at heq
          | cons p pre' =>
            rw [List.cons_append] at heq
            have := congrArg List.length (List.cons.inj heq).2
            simp [List.length_append] at this
            omega
      | cons id0 post0 =>
        have hlhs : itemsPathOk ("items" :: id0 :: post0) = isNumericId id0 := by
          simp [itemsPathOk, firstItemsIdx, List.getD_cons_succ]
        rw [hlhs, isNumericId_iff]
        constructor
        · rintro ⟨hid, hdig⟩
          exact ⟨[], id0, post0, rfl, by simp, hid, hdig⟩
        · rintro ⟨pre, id, post, heq, hpre, hid, hdig⟩
          cases pre with
          | nil =>
            obtain ⟨h1, h2⟩ := List.cons.inj heq
            obtain ⟨h3, h4⟩ := List.cons.inj h2
            subst h3
            exact ⟨hid, hdig⟩
          | cons p pre' =>
            rw [List.cons_append] at heq
            have hp := (List.cons.inj heq).1
            exact absurd (hp ▸ List.mem_cons_self p pre') hpre
    · rw [itemsPathOk_cons_ne hs, pathFirstItemsDigits_cons_ne hs]
      exact ih

/-- C5 amended: the validator returns true iff the URL parses, the host is
the primary domain or ends with the subdomain suffix, and the **first**
`"items"` segment of the non-empty path segments is immediately followed
by a non-empty all-ASCII-digit segment. -/
theorem validate_booth_url_characterization (u : Option UrlView) :
    validate_booth_url u = true ↔
      ∃ v, u = some v ∧ isBoothDomain v.host = true ∧
        pathFirstItemsDigits
          ((rustSplit v.path "/").filter (fun s => ¬s.toList.isEmpty)) := by
  cases u with
  | none =>
    simp [validate_booth_url]
  | some v =>
    simp only [validate_booth_url]
    by_cases hd : isBoothDomain v.host
    · constructor
      · intro h
        rw [if_neg (by simp [hd])] at h
        exact ⟨v, rfl, hd, (itemsPathOk_iff _).mp h⟩
      · rintro ⟨v', hv', -, hp⟩
        cases hv'
        rw [if_neg (by simp [hd])]
        exact (itemsPathOk_iff _).mpr hp
    · rw [if_pos hd]
      constructor
      · intro h; exact absurd h (by simp)
      · rintro ⟨v', hv', hdom, -⟩
        cases hv'
        exact absurd hdom hd

/-- Witness instantiating `validate_booth_url_characterization` at a
concrete accepted URL. -/
theorem validate_booth_url_characterization_witness :
    validate_booth_url (some ⟨some "booth.pm", "/ja/items/123"⟩) = true :=
  (validate_booth_url_characterization
      (some ⟨some "booth.pm", "/ja/items/123"⟩)).mpr
    ⟨⟨some "booth.pm", "/ja/items/123"⟩, rfl, by decide,
      ⟨["ja"], "123", [], by decide, by decide, by decide⟩⟩

/-! ### C6: product-id extraction -/

/-- The extraction exactly as the claim states it: find the first
`"items"` segment and parse the segment immediately following it. -/
def specFirstItemsParse (path : String) : Except String Int :=
  let segs := rustSplit path "/"
  match firstItemsIdx segs with
  | some i =>
    if i + 1 < segs.length then
      match parseI64 (segs.getD (i + 1) "") with
      | some id => .ok id
      | none => .error "Could not extract product ID from URL"
    else .error "Could not extract product ID from URL"
  | none => .error "Could not extract product ID from URL"

/-- C6 counterexample: on the path `/items/abc/items/123` the segment
after the first `"items"` is `"abc"`, which does not parse, so the
claim's reading yields an error — but the code keeps scanning and
returns 123. -/
theorem extract_product_id_counterexample :
    extract_product_id "/items/abc/items/123" = .ok 123 ∧
    specFirstItemsParse "/items/abc/items/123" =
      .error "Could not extract product ID from URL" :=
  ⟨rfl, rfl⟩

/-- The scan of `extract_product_id` is the first adjacent pair
`("items", s)` whose second component parses as `i64`. -/
lemma extractIdFromSegs_eq_pairs (segs : List String) :
    extractIdFromSegs segs =
      (segs.zip segs.tail).findSome?
        (fun p => if p.1 = "items" then parseI64 p.2 else none) := by
  induction segs with
  | nil => rfl
  | cons s rest ih =>
    cases rest with
    | nil =>
      by_cases hs : s = "items" <;> simp [extractIdFromSegs, hs]
    | cons next rest' =>
      by_cases hs : s = "items"
      · subst hs
        cases hp : parseI64 next with
        | some id =>
          simp [extractIdFromSegs, hp, List.findSome?]
        | none =>
          simp only [extractIdFromSegs, hp, List.tail_cons, List.zip_cons_cons,
            List.findSome?, if_pos rfl]
          exact ih
      · simp only [extractIdFromSegs, if_neg hs, List.tail_cons,
          List.zip_cons_cons, List.findSome?, if_neg hs]
        exact ih

/-- C6 amended: `extract_product_id` scans the path segments and returns
the integer of the **first** `"items"` segment whose immediately following
segment parses as an integer (so `/items/5840141` yields 5840141), and
errors exactly when no `"items"` segment is followed by a parseable
numeric segment. -/
theorem extract_product_id_characterization :
    (∀ path, extract_product_id path =
      match (((rustSplit path "/").zip (rustSplit path "/").tail).findSome?
          (fun p => if p.1 = "items" then parseI64 p.2 else none)) with
      | some id => .ok id
      | none => .error "Could not extract product ID from URL") ∧
    extract_product_id "/items/5840141" = .ok 5840141 ∧
    extract_product_id "/shop/example" =
      .error "Could not extract product ID from URL" := by
  refine ⟨fun path => ?_, rfl, rfl⟩
  rw [extract_product_id, extractIdFromSegs_eq_pairs]

/-- Witness instantiating `extract_product_id_characterization` on the
path with a language prefix. -/
theorem extract_product_id_characterization_witness :
    extract_product_id "/ja/items/123456" =
      match ((((rustSplit "/ja/items/123456" "/")).zip
          (rustSplit "/ja/items/123456" "/").tail).findSome?
          (fun p => if p.1 = "items" then parseI64 p.2 else none)) with
      | some id => .ok id
      | none => .error "Could not extract product ID from URL" :=
  extract_product_id_characterization.1 "/ja/items/123456"

/-! ### C8: title-based fallback heuristics -/

/-- The product-name fallback exactly as the claim states it: strip the
**trailing** site-brand suffix, then split and join all segments except
the last. -/
def specFallbackProductName (title : String) : Option String :=
  let clean_title :=
    if rustEndsWith title " - BOOTH" then
      String.mk (title.toList.take (title.toList.length - 8))
    else title
  let parts := rustSplit clean_title " - "
  if 2 ≤ parts.length then
    some (rustTrim (rustJoin " - " (parts.take (parts.length - 1))))
  else if ¬parts.isEmpty then
    some (rustTrim (parts.getD 0 ""))
  else none

/-- C8 counterexample: the code removes **every** occurrence of
`" - BOOTH"`, not only a trailing suffix, so on the title
`"A - BOOTH - B - C"` it produces `"A - B"` while the claim's
strip-the-trailing-suffix reading produces `"A - BOOTH - B"`. -/
theorem fallback_product_name_counterexample :
    fallback_parse_product_name (mkDoc [("title", ["A - BOOTH - B - C"])]) =
      some "A - B" ∧
    specFallbackProductName "A - BOOTH - B - C" = some "A - BOOTH - B" := by
  exact ⟨by decide, by decide⟩

/-- C8 amended: the shop-name fallback takes the second-to-last piece of
the title split on `" - "`; the product-name fallback removes every
occurrence of `" - BOOTH"` (anywhere in the title, not only trailing),
splits on `" - "` and joins all pieces but the last.  On
`"Widget Name - Shop Co - BOOTH"` they yield `"Shop Co"` and
`"Widget Name"`; on `"A - BOOTH - B - C"` the product name is `"A - B"`. -/
theorem fallback_title_heuristics :
    fallback_parse_shop_name
        (mkDoc [("title", ["Widget Name - Shop Co - BOOTH"])]) =
      some "Shop Co" ∧
    fallback_parse_product_name
        (mkDoc [("title", ["Widget Name - Shop Co - BOOTH"])]) =
      some "Widget Name" ∧
    fallback_parse_product_name (mkDoc [("title", ["A - BOOTH - B - C"])]) =
      some "A - B" := by
  exact ⟨by decide, by decide, by decide⟩

/-! ### C3: non-emptiness of required names -/

/-- Environment for the C3 counterexample: the JSON endpoint 404s, the
page's only content is a `<title>` whose second-to-last `" - "` piece is
blank, so the title fallback hands back an empty shop name. -/
def exEnvTitleBlank : NetEnv :=
  { parseUrl := fun u =>
      if u = "https://shop.booth.pm/items/5" then
        some ⟨some "shop.booth.pm", "/items/5"⟩
      else none
    fetch := fun u => if rustEndsWith u ".json" then .error "HTTP error" else .ok "page"
    decodeJson := fun _ => none
    parseHtml := fun _ => mkDoc [("title", ["x -  - y"])] }

/-- Projection used to state the C3 counterexample without binders. -/
def shopNameOf : Except String BoothProductInfo → Option String
  | .ok r => some r.shop_name
  | .error _ => none

/-- C3 counterexample: the resolver successfully returns a record whose
`shop_name` is the empty string — the title fallback
(`fallback_parse_shop_name`) performs no non-emptiness check on the piece
it selects, so the non-emptiness invariant fails for fallback-derived
names. -/
theorem shop_name_nonempty_counterexample :
    shopNameOf (get_product_info exEnvTitleBlank "https://shop.booth.pm/items/5") =
      some "" := by
  decide

lemma findSome?_some_mem {α β : Type} {f : α → Option β} {b : β} :
    ∀ {l : List α}, l.findSome? f = some b → ∃ a, a ∈ l ∧ f a = some b := by
  intro l
  induction l with
  | nil => intro h; simp [List.findSome?] at h
  | cons x xs ih =>
    intro h
    cases hx : f x with
    | some c =>
      refine ⟨x, List.mem_cons_self x xs, ?_⟩
      rw [hx]
      rw [List.findSome?] at h
      rw [hx] at h
      exact h
    | none =>
      rw [List.findSome?, hx] at h
      obtain ⟨a, ha, hfa⟩ := ih h
      exact ⟨a, List.mem_cons_of_mem _ ha, hfa⟩

/-- A name produced by the selector-based shop-name strategy is non-empty. -/
lemma parse_shop_name_ne_empty {d : Doc} {s : String}
    (h : parse_shop_name d = some s) : s ≠ "" := by
  unfold parse_shop_name at h
  obtain ⟨sel, -, hsel⟩ := findSome?_some_mem h
  cases hh : (d.sel sel).head? with
  | none => rw [hh] at hsel; exact absurd hsel (by simp)
  | some txt =>
    rw [hh] at hsel
    rw [Option.some_bind] at hsel
    split at hsel
    · injection hsel with h2
      subst h2
      assumption
    · exact absurd hsel (by simp)

/-- A name produced by the selector-based product-name strategy is
non-empty. -/
lemma parse_product_name_ne_empty {d : Doc} {s : String}
    (h : parse_product_name d = some s) : s ≠ "" := by
  unfold parse_product_name at h
  obtain ⟨sel, -, hsel⟩ := findSome?_some_mem h
  cases hh : (d.sel sel).head? with
  | none => rw [hh] at hsel; exact absurd hsel (by simp)
  | some txt =>
    rw [hh] at hsel
    rw [Option.some_bind] at hsel
    split at hsel
    · injection hsel with h2
      subst h2
      next hcond => exact hcond.1
    · exact absurd hsel (by simp)

/-- C3 amended: a shop or product name obtained by the selector-based
extraction is never empty, and resolution fails hard when neither the
selector strategy nor the title fallback yields a name; names are taken
only from these two strategies, never fabricated — but the title fallback
itself may yield an empty string (see the counterexample), so the
non-emptiness invariant holds only for selector-derived names. -/
theorem required_names_strategy :
    (∀ d s, parse_shop_name d = some s → s ≠ "") ∧
    (∀ d s, parse_product_name d = some s → s ≠ "") ∧
    (∀ pid booth_url d, parse_shop_name d = none →
      fallback_parse_shop_name d = none →
      resolveFromDoc pid booth_url d = .error "Could not extract shop name from page") ∧
    (∀ pid booth_url d, parse_product_name d = none →
      fallback_parse_product_name d = none →
      ∀ r, resolveFromDoc pid booth_url d ≠ .ok r) ∧
    (∀ pid booth_url d r, resolveFromDoc pid booth_url d = .ok r →
      (parse_shop_name d = some r.shop_name ∨
        fallback_parse_shop_name d = some r.shop_name) ∧
      (parse_product_name d = some r.product_name ∨
        fallback_parse_product_name d = some r.product_name)) := by
  refine ⟨fun d s => parse_shop_name_ne_empty,
    fun d s => parse_product_name_ne_empty,
    fun pid booth_url d h1 h2 => ?_,
    fun pid booth_url d h1 h2 r hok => ?_,
    fun pid booth_url d r h => ?_⟩
  · unfold resolveFromDoc
    rw [show ((parse_shop_name d).orElse fun _ => fallback_parse_shop_name d) = none by
      rw [h1, h2]; rfl]
  · obtain ⟨-, -, hp⟩ := resolveFromDoc_ok_fields hok
    rw [h1, h2] at hp
    exact absurd hp (by simp [Option.orElse])
  · obtain ⟨-, hs, hp⟩ := resolveFromDoc_ok_fields h
    constructor
    · cases hps : parse_shop_name d with
      | some x => left; rw [hps] at hs; simpa [Option.orElse] using hs
      | none => right; rw [hps] at hs; simpa [Option.orElse] using hs
    · cases hpp : parse_product_name d with
      | some x => left; rw [hpp] at hp; simpa [Option.orElse] using hp
      | none => right; rw [hpp] at hp; simpa [Option.orElse] using hp

/-- Witness applying `required_names_strategy` to a concrete document with
a selector-derived shop name. -/
theorem required_names_strategy_witness : "Extension Shop" ≠ "" :=
  required_names_strategy.1 (mkDoc [(".shop-name", ["Extension Shop"])])
    "Extension Shop" (by decide)

/-! ### C4: tag-extraction invariants -/

/-- C4 counterexample: the code's length bounds are UTF-8 **byte** counts
(Rust `str::len`), so the single-character tag `"猫"` (3 bytes, 1
character) is retained although its trimmed length in characters is 1. -/
theorem parse_tags_length_counterexample :
    "猫" ∈ parse_tags (mkDoc [("#js-item-tag-list", ["猫"])]) ∧
    (rustTrim "猫").toList.length < 2 := by
  exact ⟨by decide, by decide⟩

/-- The invariant every retained tag satisfies: byte length between 2 and
50 and not denylisted. -/
def goodTag (t : String) : Prop :=
  2 ≤ rustLen t ∧ rustLen t ≤ 50 ∧ t ∉ excludedTexts

lemma processTag_preserves {l : List String} (txt : String)
    (h : l.Nodup ∧ ∀ t ∈ l, goodTag t) :
    (processTag l txt).Nodup ∧ ∀ t ∈ processTag l txt, goodTag t := by
  unfold processTag
  split
  · split
    · exact h
    · next hlen hmem =>
      obtain ⟨h1, h2⟩ := not_or.mp hmem
      have hexcl : rustTrim txt ∉ excludedTexts := by
        simpa [List.contains, List.elem_eq_mem] using h1
      have hdup : rustTrim txt ∉ l := by
        simpa [List.contains, List.elem_eq_mem] using h2
      constructor
      · simp [List.nodup_append, h.1, hdup]
      · intro t ht
        rcases List.mem_append.mp ht with h' | h'
        · exact h.2 t h'
        · have : t = rustTrim txt := List.mem_singleton.mp h'
          subst this
          exact ⟨hlen.1, hlen.2.1, hexcl⟩
  · exact h

lemma foldl_processTag_preserves (txts : List String) :
    ∀ {l : List String}, (l.Nodup ∧ ∀ t ∈ l, goodTag t) →
      ((txts.foldl processTag l).Nodup ∧ ∀ t ∈ txts.foldl processTag l, goodTag t) := by
  induction txts with
  | nil => intro l h; exact h
  | cons x xs ih =>
    intro l h
    exact ih (processTag_preserves x h)

/-- C4 amended: the retained tags (already stored in trimmed form) are
pairwise distinct, none equals a denylisted UI phrase, and each has UTF-8
**byte** length between 2 and 50 inclusive — the bounds are bytes, not
characters, so a single multi-byte character can be retained. -/
theorem parse_tags_invariants :
    ∀ d, (parse_tags d).Nodup ∧
      ∀ t ∈ parse_tags d, 2 ≤ rustLen t ∧ rustLen t ≤ 50 ∧ t ∉ excludedTexts := by
  intro d
  unfold parse_tags
  have main : ∀ (sels : List String) (l : List String),
      (l.Nodup ∧ ∀ t ∈ l, goodTag t) →
      ((sels.foldl (fun tags s => (d.sel s).foldl processTag tags) l).Nodup ∧
        ∀ t ∈ sels.foldl (fun tags s => (d.sel s).foldl processTag tags) l,
          goodTag t) := by
    intro sels
    induction sels with
    | nil => intro l h; exact h
    | cons sel rest ih =>
      intro l h
      exact ih _ (foldl_processTag_preserves (d.sel sel) h)
  exact main tagSelectors [] ⟨List.nodup_nil, by simp⟩

/-- Witness applying `parse_tags_invariants` to a concrete document and
retained tag. -/
theorem parse_tags_invariants_witness :
    2 ≤ rustLen "VRChat" ∧ rustLen "VRChat" ≤ 50 ∧ "VRChat" ∉ excludedTexts :=
  (parse_tags_invariants (mkDoc [(".tags .tag", ["VRChat"])])).2 "VRChat" (by decide)

end Booth
